import Mathlib

/-!
# A shallow embedding of `cement2/core/controller.py`

This file embeds the command-collection and dispatch machinery of
`CementBaseController` (cement2, `core/controller.py`) and proves the
documented properties of its merge/conflict-resolution algorithm and its
dispatcher.

Modelling conventions:

* Python `dict`s (`self.exposed`, `self.hidden`, `self.visible`) are
  insertion-ordered association lists (`Dict` below).  `Dict.insert`
  updates in place when the key exists and appends otherwise; iteration
  order is list order — exactly Python's insertion-order semantics.
* `exc.CementRuntimeError` (the "ConfigurationError" of the design
  documents), Python `KeyError` on a dict subscript, and the handler
  registry's lookup failure are the constructors of `CementError`; the
  error messages are built with the exact format strings of the source.
* The handler registry is the external collaborator of the design: a
  registration-ordered list of controller definitions (`handler.list`
  preserves registration order, `handler.get` searches by label).
* Recursive collection (`_collect` → `_collect_from_controllers` →
  `_collect_from_stacked_controller` → child `_collect`) is unguarded
  recursion in the source.  It is embedded with an explicit fuel
  parameter: `none` means the recursion did not finish within the given
  fuel (the Python analogue is unbounded recursion / stack exhaustion).
* Writes into the external argument parser (`self.app.args.epilog`,
  `description`, `usage`, `formatter_class`, `add_argument`) and the
  help-text string rendering itself are out of scope per the design
  document ("help-text string formatting … uninteresting rendering
  step"); what *is* modelled of `help_text` is its observable effect on
  the controller's own state, namely the in-place rewrite of
  `self.visible`.
-/

namespace Cement

/-- An `@expose`-decorated method declared on a controller: the decorator
stores `label` (always the method name), `help`, `aliases` and `hide` on
the function object. -/
structure CmdDecl where
  label : String
  help : String
  aliases : List String
  hide : Bool
  deriving Repr, DecidableEq

/-- One argument declaration: the `(['-f', '--foo'], dict(...))` pairs of
`Meta.arguments`.  The option map's values are kept as opaque strings. -/
abbrev ArgDecl := List String × List (String × String)

/-- The static `Meta` block of a controller class: `label`,
`description`, `stacked_on`, `hide`, `arguments`. -/
structure ControllerMeta where
  label : String
  description : String
  stacked_on : Option String
  hide : Bool
  arguments : List ArgDecl
  deriving Repr, DecidableEq

/-- A controller definition: its `Meta` plus its `@expose`-decorated
commands, in `dir()` (alphabetical) order.  The base class's own exposed
`default` command is inherited by every subclass that does not override
it, so it appears in `commands` unless the model represents a subclass
that overrode `default` without re-exposing it. -/
structure ControllerDef where
  meta : ControllerMeta
  commands : List CmdDecl
  deriving Repr, DecidableEq

/-- The `func_dict` record built in `_collect_from_self` /
`_collect_from_non_stacked_controller`:
`dict(controller=…, label=…, help=…, aliases=…, hide=…)`. -/
structure FuncDict where
  controller : String
  label : String
  help : String
  aliases : List String
  hide : Bool
  deriving Repr, DecidableEq

/-- Insertion-ordered Python `dict` keyed by command label. -/
abbrev Dict := List (String × FuncDict)

namespace Dict

/-- `k in d` (Python membership test on dict keys). -/
def contains (d : Dict) (k : String) : Bool :=
  d.any (fun p => p.1 = k)

/-- `d[k]` as an option (Python raises `KeyError` on `none`). -/
def find? : Dict → String → Option FuncDict
  | [], _ => none
  | (k2, v) :: rest, k => if k2 = k then some v else find? rest k

/-- `d[k] = v`: update in place when the key exists, append otherwise
(Python's insertion-order semantics). -/
def insert : Dict → String → FuncDict → Dict
  | [], k, v => [(k, v)]
  | (k2, v2) :: rest, k, v =>
    if k2 = k then (k2, v) :: rest else (k2, v2) :: insert rest k v

/-- `del d[k]`. -/
def erase (d : Dict) (k : String) : Dict :=
  d.filter (fun p => p.1 ≠ k)

/-- `list(d.keys())`. -/
def keys (d : Dict) : List String :=
  d.map (fun p => p.1)

end Dict

/-- The message of the `CementRuntimeError` raised in
`_collect_from_self` when a command label equals the controller label. -/
def selfMatchMsg (l : String) : String :=
  "Controller command '" ++ l ++ "' matches controller label.  Use 'default' instead."

/-- The message of the `CementRuntimeError` raised in
`_collect_from_stacked_controller` on a duplicate non-default label:
it interpolates the colliding label and the *child* controller's label. -/
def dupCommandMsg (l childController : String) : String :=
  "Duplicate command '" ++ l ++ "' found in '" ++ childController ++ "' controller."

/-- The message of the `CementRuntimeError` raised in
`_check_for_duplicates_on_aliases` (the "colides" typo is the source's). -/
def aliasCollisionMsg (al owner other : String) : String :=
  "Alias '" ++ al ++ "' from the '" ++ owner ++ "' controller colides with the '" ++
    other ++ "' controller."

/-- Failure modes of collection and dispatch.  `runtime` is
`exc.CementRuntimeError` (the design documents call it
`ConfigurationError`); `keyError` is a Python `KeyError` on a dict
subscript; `lookupError` is the handler registry's `handler.get`
failure. -/
inductive CementError where
  | runtime (msg : String)
  | keyError (key : String)
  | lookupError (label : String)
  deriving Repr, DecidableEq

/-- The mutable table state of one controller instance:
`self.exposed`, `self.hidden`, `self.visible`, `self.arguments`. -/
structure CollectState where
  exposed : Dict
  hidden : Dict
  visible : Dict
  arguments : List ArgDecl
  deriving Repr, DecidableEq

/-- The state `_collect` resets to (and `__init__` starts from). -/
def initState : CollectState := ⟨[], [], [], []⟩

/-- `self.command = 'default'` in `__init__`. -/
def initCommand : String := "default"

/-- The tail of `_collect_from_self`'s loop body once the label check has
passed: `self.exposed[label] = func_dict`, then `hidden` or `visible`
according to the command's `hide` flag and the controller's own
`Meta.hide`. -/
def classifySelf (m : ControllerMeta) (fd : FuncDict) (st : CollectState) : CollectState :=
  let st1 := { st with exposed := st.exposed.insert fd.label fd }
  if fd.hide then { st1 with hidden := st1.hidden.insert fd.label fd }
  else if m.hide then st1
  else { st1 with visible := st1.visible.insert fd.label fd }

/-- The command loop of `_collect_from_self`: validate
`label ≠ Meta.label` (else `CementRuntimeError`), then register the
command. -/
def collectCmds (m : ControllerMeta) : List CmdDecl → CollectState → Except CementError CollectState
  | [], st => .ok st
  | c :: rest, st =>
    if c.label = m.label then
      .error (.runtime (selfMatchMsg c.label))
    else
      collectCmds m rest (classifySelf m ⟨m.label, c.label, c.help, c.aliases, c.hide⟩ st)

/-- `_collect_from_self`: append `Meta.arguments`, then collect the
exposed commands.  (The epilog write goes to the external argument
parser and is out of scope.) -/
def collectFromSelf (cd : ControllerDef) (st : CollectState) : Except CementError CollectState :=
  collectCmds cd.meta cd.commands { st with arguments := st.arguments ++ cd.meta.arguments }

/-- `_collect_from_non_stacked_controller`: splice a single synthetic
pointer entry labelled with the standalone controller's label (note: no
duplicate check, and the entry is never classified as hidden). -/
def collectFromNonStacked (child : ControllerMeta) (st : CollectState) : CollectState :=
  let fd : FuncDict := ⟨child.label, child.label, child.description, [], false⟩
  let st1 := { st with exposed := st.exposed.insert child.label fd }
  if child.hide then st1 else { st1 with visible := st1.visible.insert child.label fd }

/-- The merge loop of `_collect_from_stacked_controller`: for each entry
of the child's `exposed` dict (iteration = insertion order), a label
already present is silently skipped when it is `"default"` and raises a
`CementRuntimeError` otherwise; a fresh label is classified against the
*child* controller's `Meta.hide` and added to `exposed`. -/
def spliceCmds (childMeta : ControllerMeta) :
    List (String × FuncDict) → CollectState → Except CementError CollectState
  | [], st => .ok st
  | (l, fd) :: rest, st =>
    if st.exposed.contains l then
      if l = "default" then spliceCmds childMeta rest st
      else .error (.runtime (dupCommandMsg l childMeta.label))
    else
      let st1 :=
        if fd.hide then { st with hidden := st.hidden.insert l fd }
        else if childMeta.hide then st
        else { st with visible := st.visible.insert l fd }
      spliceCmds childMeta rest { st1 with exposed := st1.exposed.insert l fd }

/-- `_collect_from_stacked_controller`, given the child's collected
state: append the child's arguments, then merge its commands. -/
def spliceStacked (childMeta : ControllerMeta) (childSt st : CollectState) :
    Except CementError CollectState :=
  spliceCmds childMeta childSt.exposed { st with arguments := st.arguments ++ childSt.arguments }

/-- Inner loop of `_check_for_duplicates_on_aliases`: each alias of one
command is looked up among the keys of the final `exposed` dict. -/
def checkAliasList (st : CollectState) (owner : String) :
    List String → Except CementError Unit
  | [] => .ok ()
  | al :: rest =>
    match st.exposed.find? al with
    | some fd2 => .error (.runtime (aliasCollisionMsg al owner fd2.controller))
    | none => checkAliasList st owner rest

/-- Outer loop of `_check_for_duplicates_on_aliases` over the entries of
`exposed`. -/
def checkAliasEntries (st : CollectState) :
    List (String × FuncDict) → Except CementError Unit
  | [] => .ok ()
  | (_, fd) :: rest =>
    match checkAliasList st fd.controller fd.aliases with
    | .error e => .error e
    | .ok _ => checkAliasEntries st rest

/-- `_check_for_duplicates_on_aliases`. -/
def checkAliases (st : CollectState) : Except CementError Unit :=
  checkAliasEntries st st.exposed

/-- `handler.get('controller', label)`: search the registry (a
registration-ordered list) by `Meta.label`. -/
def findController : List ControllerDef → String → Option ControllerDef
  | [], _ => none
  | d :: rest, l => if d.meta.label = l then some d else findController rest l

/-- The loop of `_collect_from_controllers` over `handler.list`:
skip the controller itself; splice standalone controllers as pointer
entries when the current controller is `'base'`; recursively collect and
merge controllers stacked on the current label.  `recurse` is the
recursive collection at strictly smaller fuel. -/
def regPass (recurse : ControllerDef → Option (Except CementError CollectState))
    (selfMeta : ControllerMeta) :
    List ControllerDef → CollectState → Option (Except CementError CollectState)
  | [], st => some (.ok st)
  | d :: rest, st =>
    if d.meta.label = selfMeta.label then regPass recurse selfMeta rest st
    else
      match d.meta.stacked_on with
      | none =>
        if selfMeta.label = "base" then
          regPass recurse selfMeta rest (collectFromNonStacked d.meta st)
        else regPass recurse selfMeta rest st
      | some p =>
        if p = selfMeta.label then
          match recurse d with
          | none => none
          | some (.error e) => some (.error e)
          | some (.ok childSt) =>
            match spliceStacked d.meta childSt st with
            | .error e => some (.error e)
            | .ok st2 => regPass recurse selfMeta rest st2
        else regPass recurse selfMeta rest st

/-- `_collect` with explicit fuel for the unguarded recursion into
stacked children: reset the table state, run the self pass, the registry
pass, and the alias-duplication check.  `none` means the recursion did
not bottom out within `fuel` (the source performs no cycle detection, so
on a cyclic stacking relation this is its Python fate: unbounded
recursion). -/
def collectFuel : Nat → List ControllerDef → ControllerDef →
    Option (Except CementError CollectState)
  | 0, _, _ => none
  | fuel + 1, reg, c =>
    match collectFromSelf c initState with
    | .error e => some (.error e)
    | .ok st =>
      match regPass (fun d => collectFuel fuel reg d) c.meta reg st with
      | none => none
      | some (.error e) => some (.error e)
      | some (.ok st2) =>
        match checkAliases st2 with
        | .error e => some (.error e)
        | .ok _ => some (.ok st2)

/-- `re.sub('-', '_', token)`. -/
def normalizeCmd (s : String) : String :=
  ⟨s.data.map (fun ch => if ch = '-' then '_' else ch)⟩

/-- `token.startswith('-')`: whether the first character is the flag
prefix. -/
def startsWithDash (s : String) : Bool :=
  match s.data with
  | [] => false
  | ch :: _ => ch = '-'

/-- Result of `_parse_args`'s command-chopping step: the new
`self.command` and the remaining `self.app.argv`. -/
structure ParseResult where
  command : String
  argv : List String
  deriving Repr, DecidableEq

/-- The alias scan of `_parse_args`: first entry of `exposed` (in
insertion order) whose alias list contains the raw token. -/
def aliasScan (tok : String) : List (String × FuncDict) → Option FuncDict
  | [] => none
  | (_, fd) :: rest => if tok ∈ fd.aliases then some fd else aliasScan tok rest

/-- The command-resolution step of `_parse_args`: with a non-empty argv
whose head is not a flag, try the dash→underscore-normalized head as a
key of `exposed` (consume on hit), else scan aliases with the raw head
(consume on hit, command becomes the entry's `label` field), else leave
`self.command` and argv untouched. -/
def parseCommand (ex : Dict) (command0 : String) (argv : List String) : ParseResult :=
  match argv with
  | [] => ⟨command0, argv⟩
  | tok :: rest =>
    if startsWithDash tok then ⟨command0, tok :: rest⟩
    else
      let cmd := normalizeCmd tok
      if ex.contains cmd then ⟨cmd, rest⟩
      else
        match aliasScan tok ex with
        | some fd => ⟨fd.label, rest⟩
        | none => ⟨command0, tok :: rest⟩

/-- What one `dispatch()` call does after argument parsing, as an
observable outcome.  A delegated invocation records the owning
controller's label, the invoked command label, and the fresh delegate
instance's table state after its `setup()` (which re-collects against
the same registry — the shared application context). -/
inductive DispatchResult where
  | noop
  | invokedOnSelf (label : String)
  | invokedDelegated (controller : String) (label : String) (delegateState : CollectState)
  deriving Repr, DecidableEq

/-- `dispatch()`: resolve the command from argv (`_parse_args`); when
`self.command` is falsy (the empty string) log and do nothing; otherwise
subscript `self.exposed` (KeyError when absent), and route: invoke on
self when the owning controller label is our own, else `handler.get` the
owner, instantiate, `setup()` (= fresh collection against the same
registry) and invoke on the new instance. -/
def dispatch (fuel : Nat) (reg : List ControllerDef) (selfMeta : ControllerMeta)
    (st : CollectState) (command0 : String) (argv : List String) :
    Option (Except CementError DispatchResult) :=
  let pr := parseCommand st.exposed command0 argv
  if pr.command = "" then some (.ok .noop)
  else
    match st.exposed.find? pr.command with
    | none => some (.error (.keyError pr.command))
    | some fd =>
      if fd.controller = selfMeta.label then some (.ok (.invokedOnSelf fd.label))
      else
        match findController reg fd.controller with
        | none => some (.error (.lookupError fd.controller))
        | some d =>
          match collectFuel fuel reg d with
          | none => none
          | some (.error e) => some (.error e)
          | some (.ok childSt) => some (.ok (.invokedDelegated fd.controller fd.label childSt))

/-- `re.sub('_', '-', label)`. -/
def dashify (s : String) : String :=
  ⟨s.data.map (fun ch => if ch = '_' then '-' else ch)⟩

/-- Whether a label contains an underscore (equivalently, whether
`help_text`'s rewrite changes it). -/
def hasUnderscore (s : String) : Bool :=
  s.data.any (fun ch => ch = '_')

/-- One iteration of `help_text`'s loop over the snapshot of
`self.visible`'s keys: when the dash form differs from the key,
`self.visible[dashed] = self.visible[label]; del self.visible[label]`.
(The `none` branch of the lookup is unreachable when the snapshot's keys
are the dict's keys.) -/
def hstep (v : Dict) (l : String) : Dict :=
  if dashify l = l then v
  else
    match v.find? l with
    | some fd => (v.insert (dashify l) fd).erase l
    | none => v

/-- The in-place rewrite of `self.visible` performed by reading the
`help_text` property: fold the per-key step over a snapshot of the
keys. -/
def helpTextVisible (v : Dict) : Dict :=
  (Dict.keys v).foldl hstep v

/-- The observable state effect of reading `help_text`: only
`self.visible` is rewritten; `exposed`, `hidden` and `arguments` are
untouched.  (The rendered string itself is out-of-scope formatting.) -/
def helpTextEffect (st : CollectState) : CollectState :=
  { st with visible := helpTextVisible st.visible }

/-! ## Concrete controller definitions used by scenarios -/

/-- The base class's own exposed command:
`@expose(hide=True, help='default command')  def default(self)`. -/
def defaultCmd : CmdDecl := ⟨"default", "default command", [], true⟩

/-- Scenario C/B base controller. -/
def baseC : ControllerDef :=
  ⟨⟨"base", "base controller", none, false, []⟩, [defaultCmd]⟩

/-- Scenario C `db` controller: stacked on `base`, declares `status`. -/
def dbC : ControllerDef :=
  ⟨⟨"db", "db controller", some "base", false, []⟩,
   [defaultCmd, ⟨"status", "db status", [], false⟩]⟩

/-- Scenario C `cache` controller: stacked on `base`, declares `status`. -/
def cacheC : ControllerDef :=
  ⟨⟨"cache", "cache controller", some "base", false, []⟩,
   [defaultCmd, ⟨"status", "cache status", [], false⟩]⟩

/-- Scenario C registry: two stacked siblings both declaring `status`. -/
def regC : List ControllerDef := [baseC, dbC, cacheC]

/-- Scenario B `db` controller: declares its own (re-exposed) `default`. -/
def dbB : ControllerDef :=
  ⟨⟨"db", "db controller", some "base", false, []⟩,
   [⟨"default", "db default", [], false⟩]⟩

/-- Scenario B `cache` controller: declares its own `default`. -/
def cacheB : ControllerDef :=
  ⟨⟨"cache", "cache controller", some "base", false, []⟩,
   [⟨"default", "cache default", [], false⟩]⟩

/-- Scenario B registry: two stacked siblings with their own defaults. -/
def regB : List ControllerDef := [baseC, dbB, cacheB]

/-- A controller with two commands sharing the alias `"r"` while no
command is labelled `"r"`. -/
def baseAliasDup : ControllerDef :=
  ⟨⟨"base", "base controller", none, false, []⟩,
   [defaultCmd, ⟨"one", "first", ["r"], false⟩, ⟨"two", "second", ["r"], false⟩]⟩

/-- Registry for the duplicate-alias scenario. -/
def regAliasDup : List ControllerDef := [baseAliasDup]

/-- A root controller onto which a controller labelled `"base"` is
stacked. -/
def rootX : ControllerDef :=
  ⟨⟨"root", "root controller", none, false, []⟩, [defaultCmd]⟩

/-- A controller labelled `"base"` stacked on `root`: its own registry
pass therefore splices standalone pointer entries, whose labels equal
their owning controllers' labels. -/
def baseX : ControllerDef :=
  ⟨⟨"base", "stacked base", some "root", false, []⟩, [defaultCmd]⟩

/-- A standalone controller, exposed as a pointer entry under `baseX`. -/
def saX : ControllerDef :=
  ⟨⟨"sa", "standalone", none, false, []⟩, [defaultCmd]⟩

/-- Registry in which a pointer entry with label = owning controller
flows through a stacked splice. -/
def regX : List ControllerDef := [rootX, baseX, saX]

/-- A *hidden* base controller with a visible own command. -/
def baseHidden : ControllerDef :=
  ⟨⟨"base", "hidden base", none, true, []⟩,
   [defaultCmd, ⟨"run", "run cmd", [], false⟩]⟩

/-- A non-hidden child stacked on the hidden base. -/
def dbVis : ControllerDef :=
  ⟨⟨"db", "db controller", some "base", false, []⟩,
   [defaultCmd, ⟨"migrate", "migrate cmd", [], false⟩]⟩

/-- Registry for the hidden-parent/visible-child scenario. -/
def regHidden : List ControllerDef := [baseHidden, dbVis]

/-- A base controller whose subclass overrode `default` without
re-exposing it: no `default` command is collected. -/
def baseNoDefault : ControllerDef :=
  ⟨⟨"base", "base controller", none, false, []⟩,
   [⟨"run", "run cmd", [], false⟩]⟩

/-- Registry for the missing-default dispatch scenario. -/
def regNoDefault : List ControllerDef := [baseNoDefault]

/-- Controller `aa`, stacked on `bb`. -/
def ctrlAA : ControllerDef :=
  ⟨⟨"aa", "controller aa", some "bb", false, []⟩, [defaultCmd]⟩

/-- Controller `bb`, stacked on `aa`: together with `ctrlAA` this is a
stacking cycle. -/
def ctrlBB : ControllerDef :=
  ⟨⟨"bb", "controller bb", some "aa", false, []⟩, [defaultCmd]⟩

/-- A cyclic registry: `aa` stacked on `bb` stacked on `aa`. -/
def regCyc : List ControllerDef := [ctrlAA, ctrlBB]

/-- Scenario A base controller: declares `build` and `run`. -/
def baseA : ControllerDef :=
  ⟨⟨"base", "base controller", none, false, []⟩,
   [defaultCmd, ⟨"build", "build cmd", [], false⟩, ⟨"run", "run cmd", [], false⟩]⟩

/-- Scenario A `db` controller: stacked on `base`, declares `migrate`
with alias `mig`. -/
def dbA : ControllerDef :=
  ⟨⟨"db", "db controller", some "base", false, []⟩,
   [defaultCmd, ⟨"migrate", "migrate cmd", ["mig"], false⟩]⟩

/-- Scenario A registry. -/
def regA : List ControllerDef := [baseA, dbA]

/-- The table `collect` builds for `baseA` against `regA`. -/
def stScenarioA : CollectState :=
  ⟨[("default", ⟨"base", "default", "default command", [], true⟩),
    ("build", ⟨"base", "build", "build cmd", [], false⟩),
    ("run", ⟨"base", "run", "run cmd", [], false⟩),
    ("migrate", ⟨"db", "migrate", "migrate cmd", ["mig"], false⟩)],
   [("default", ⟨"base", "default", "default command", [], true⟩)],
   [("build", ⟨"base", "build", "build cmd", [], false⟩),
    ("run", ⟨"base", "run", "run cmd", [], false⟩),
    ("migrate", ⟨"db", "migrate", "migrate cmd", ["mig"], false⟩)],
   []⟩

/-- The table `collect` builds for `dbA` against `regA` (the fresh
delegate instance's state after its `setup()`). -/
def dbStA : CollectState :=
  ⟨[("default", ⟨"db", "default", "default command", [], true⟩),
    ("migrate", ⟨"db", "migrate", "migrate cmd", ["mig"], false⟩)],
   [("default", ⟨"db", "default", "default command", [], true⟩)],
   [("migrate", ⟨"db", "migrate", "migrate cmd", ["mig"], false⟩)],
   []⟩

/-- A controller declaring a command labelled with its own label. -/
def badSelf : ControllerDef :=
  ⟨⟨"bad", "bad controller", none, false, []⟩, [⟨"bad", "oops", [], false⟩]⟩

/-- Acyclicity of the stacking relation, phrased as a rank function that
strictly decreases from every parent label to every controller stacked
on it.  For a finite registry this is equivalent to the stacking forest
having no cycle. -/
def StackedMeasureOk (μ : String → Nat) (reg : List ControllerDef) : Prop :=
  ∀ d ∈ reg, ∀ p, d.meta.stacked_on = some p → μ d.meta.label < μ p

end Cement

/-! ## Dictionary lemmas -/

namespace Cement

theorem Dict.contains_iff (d : Dict) (k : String) :
    d.contains k = true ↔ ∃ v, (k, v) ∈ d := by
  simp only [Dict.contains, List.any_eq_true, decide_eq_true_eq]
  constructor
  · rintro ⟨⟨k2, v⟩, hm, rfl⟩
    exact ⟨v, hm⟩
  · rintro ⟨v, hm⟩
    exact ⟨(k, v), hm, rfl⟩

theorem Dict.contains_eq_isSome (d : Dict) (k : String) :
    d.contains k = (d.find? k).isSome := by
  induction d with
  | nil => rfl
  | cons p rest ih =>
    obtain ⟨k2, v⟩ := p
    by_cases h : k2 = k
    · simp [Dict.contains, Dict.find?, h]
    · simp [Dict.contains, Dict.find?, h, ← ih, Ne.symm h]

theorem Dict.find?_eq_none (d : Dict) (k : String) :
    d.find? k = none ↔ d.contains k = false := by
  rw [Dict.contains_eq_isSome]
  cases d.find? k <;> simp

theorem Dict.find?_insert_self (d : Dict) (k : String) (v : FuncDict) :
    (d.insert k v).find? k = some v := by
  induction d with
  | nil => simp [Dict.insert, Dict.find?]
  | cons p rest ih =>
    obtain ⟨k2, v2⟩ := p
    by_cases h : k2 = k <;> simp [Dict.insert, Dict.find?, h, ih]

theorem Dict.find?_insert_ne (d : Dict) (k j : String) (v : FuncDict) (h : j ≠ k) :
    (d.insert k v).find? j = d.find? j := by
  induction d with
  | nil => simp [Dict.insert, Dict.find?, Ne.symm h]
  | cons p rest ih =>
    obtain ⟨k2, v2⟩ := p
    by_cases h2 : k2 = k
    · subst h2
      simp [Dict.insert, Dict.find?, Ne.symm h]
    · simp only [Dict.insert, if_neg h2]
      by_cases h3 : k2 = j <;> simp [Dict.find?, h3, ih]

theorem Dict.contains_insert (d : Dict) (k j : String) (v : FuncDict) :
    (d.insert k v).contains j = true ↔ j = k ∨ d.contains j = true := by
  by_cases h : j = k
  · subst h
    simp [Dict.contains_eq_isSome, Dict.find?_insert_self]
  · simp [Dict.contains_eq_isSome, Dict.find?_insert_ne d k j v h, h]

theorem Dict.contains_insert_self (d : Dict) (k : String) (v : FuncDict) :
    (d.insert k v).contains k = true :=
  (Dict.contains_insert d k k v).mpr (Or.inl rfl)

theorem Dict.contains_erase (d : Dict) (k j : String) :
    (d.erase k).contains j = true ↔ j ≠ k ∧ d.contains j = true := by
  simp only [Dict.erase, Dict.contains, List.any_eq_true, decide_eq_true_eq, List.mem_filter]
  constructor
  · rintro ⟨p, ⟨hm, hne⟩, rfl⟩
    simp only [ne_eq, decide_not, Bool.not_eq_true', decide_eq_false_iff_not] at hne
    exact ⟨hne, p, hm, rfl⟩
  · rintro ⟨hne, p, hm, rfl⟩
    refine ⟨p, ⟨hm, ?_⟩, rfl⟩
    simp [hne]

theorem Dict.mem_keys (d : Dict) (k : String) :
    k ∈ Dict.keys d ↔ d.contains k = true := by
  simp only [Dict.keys, List.mem_map, Dict.contains_iff]
  constructor
  · rintro ⟨⟨k2, v⟩, hm, rfl⟩
    exact ⟨v, hm⟩
  · rintro ⟨v, hm⟩
    exact ⟨(k, v), hm, rfl⟩

end Cement

/-! ## help_text rewrite lemmas -/

namespace Cement

theorem map_dash_eq_self (L : List Char) :
    L.map (fun ch => if ch = '_' then '-' else ch) = L ↔ ∀ ch ∈ L, ch ≠ '_' := by
  induction L with
  | nil => simp
  | cons a t ih =>
    simp only [List.map_cons, List.cons.injEq, List.mem_cons, ne_eq]
    constructor
    · rintro ⟨ha, ht⟩ ch hch
      rcases hch with rfl | hch
      · intro hu
        subst hu
        simp at ha
      · exact (ih.mp ht) ch hch
    · intro h
      constructor
      · have := h a (Or.inl rfl)
        simp [this]
      · exact ih.mpr fun ch hch => h ch (Or.inr hch)

theorem hasUnderscore_iff (s : String) :
    hasUnderscore s = false ↔ ∀ ch ∈ s.data, ch ≠ '_' := by
  simp [hasUnderscore, List.any_eq_false]

theorem dashify_eq_self_iff (s : String) :
    dashify s = s ↔ hasUnderscore s = false := by
  cases s with
  | mk L =>
    rw [hasUnderscore_iff]
    constructor
    · intro h
      exact (map_dash_eq_self L).mp (congrArg String.data h)
    · intro h
      exact congrArg String.mk ((map_dash_eq_self L).mpr h)

theorem hasUnderscore_dashify (s : String) : hasUnderscore (dashify s) = false := by
  rw [hasUnderscore_iff]
  simp only [dashify, List.mem_map]
  rintro ch ⟨a, _, rfl⟩
  by_cases h : a = '_' <;> simp [h]

theorem hstep_persists_of_ne (v : Dict) (l k : String) (hne : k ≠ l)
    (hc : v.contains k = true) : (hstep v l).contains k = true := by
  unfold hstep
  by_cases h : dashify l = l
  · simp [h, hc]
  · rw [if_neg h]
    cases hf : v.find? l with
    | none => simpa using hc
    | some fd =>
      exact (Dict.contains_erase _ l k).mpr
        ⟨hne, (Dict.contains_insert v (dashify l) k fd).mpr (Or.inr hc)⟩

theorem hstep_persists_noU (v : Dict) (l k : String) (hk : hasUnderscore k = false)
    (hc : v.contains k = true) : (hstep v l).contains k = true := by
  by_cases hkl : k = l
  · subst hkl
    unfold hstep
    have : dashify k = k := (dashify_eq_self_iff k).mpr hk
    simp [this, hc]
  · exact hstep_persists_of_ne v l k hkl hc

theorem hstep_shrinks_underscore (v : Dict) (l k : String) (hk : hasUnderscore k = true)
    (hc : (hstep v l).contains k = true) : v.contains k = true ∧ k ≠ l := by
  unfold hstep at hc
  by_cases h : dashify l = l
  · rw [if_pos h] at hc
    refine ⟨hc, ?_⟩
    rintro rfl
    rw [(dashify_eq_self_iff k).mp h] at hk
    simp at hk
  · rw [if_neg h] at hc
    cases hf : v.find? l with
    | none =>
      rw [hf] at hc
      refine ⟨hc, ?_⟩
      rintro rfl
      rw [(Dict.find?_eq_none v k).mp hf] at hc
      simp at hc
    | some fd =>
      rw [hf] at hc
      simp only at hc
      obtain ⟨hne, hc2⟩ := (Dict.contains_erase _ l k).mp hc
      rcases (Dict.contains_insert v (dashify l) k fd).mp hc2 with rfl | hck
      · rw [hasUnderscore_dashify l] at hk
        simp at hk
      · exact ⟨hck, hne⟩

theorem hstep_inserts_dash (v : Dict) (l : String) (hu : hasUnderscore l = true)
    (hc : v.contains l = true) : (hstep v l).contains (dashify l) = true := by
  unfold hstep
  have h : ¬ dashify l = l := by
    intro h
    rw [(dashify_eq_self_iff l).mp h] at hu
    simp at hu
  rw [if_neg h]
  cases hf : v.find? l with
  | none =>
    rw [(Dict.find?_eq_none v l).mp hf] at hc
    simp at hc
  | some fd =>
    exact (Dict.contains_erase _ l (dashify l)).mpr
      ⟨h, (Dict.contains_insert v (dashify l) (dashify l) fd).mpr (Or.inl rfl)⟩

theorem foldl_hstep_persists_noU (ls : List String) (v : Dict) (k : String)
    (hk : hasUnderscore k = false) (hc : v.contains k = true) :
    (ls.foldl hstep v).contains k = true := by
  induction ls generalizing v with
  | nil => simpa using hc
  | cons a t ih => exact ih (hstep v a) (hstep_persists_noU v a k hk hc)

theorem foldl_hstep_shrinks (ls : List String) (v : Dict) (k : String)
    (hk : hasUnderscore k = true) (hc : (ls.foldl hstep v).contains k = true) :
    v.contains k = true ∧ k ∉ ls := by
  induction ls generalizing v with
  | nil => simpa using hc
  | cons a t ih =>
    obtain ⟨h1, h2⟩ := ih (hstep v a) hc
    obtain ⟨h3, h4⟩ := hstep_shrinks_underscore v a k hk h1
    refine ⟨h3, ?_⟩
    simp [h2, h4]

theorem foldl_hstep_dash_present (ls : List String) (v : Dict) (l : String)
    (hnd : ls.Nodup) (hl : l ∈ ls) (hu : hasUnderscore l = true)
    (hc : v.contains l = true) : (ls.foldl hstep v).contains (dashify l) = true := by
  induction ls generalizing v with
  | nil => simp at hl
  | cons a t ih =>
    simp only [List.foldl_cons]
    rw [List.mem_cons] at hl
    rcases hl with rfl | hl
    · exact foldl_hstep_persists_noU t (hstep v l) (dashify l) (hasUnderscore_dashify l)
        (hstep_inserts_dash v l hu hc)
    · have hne : l ≠ a := by
        rintro rfl
        exact (List.nodup_cons.mp hnd).1 hl
      exact ih (hstep v a) (List.nodup_cons.mp hnd).2 hl
        (hstep_persists_of_ne v a l hne hc)

end Cement

/-! ## Collection and dispatch helper lemmas -/

namespace Cement

theorem collectCmds_error_of_match (m : ControllerMeta) (cmds : List CmdDecl)
    (st : CollectState) (hx : ∃ c ∈ cmds, c.label = m.label) :
    collectCmds m cmds st = .error (.runtime (selfMatchMsg m.label)) := by
  induction cmds generalizing st with
  | nil => simp at hx
  | cons c rest ih =>
    by_cases h : c.label = m.label
    · simp [collectCmds, h]
    · obtain ⟨c2, hc2, hl2⟩ := hx
      rw [List.mem_cons] at hc2
      rcases hc2 with rfl | hc2
      · exact absurd hl2 h
      · simp only [collectCmds, if_neg h]
        exact ih _ ⟨c2, hc2, hl2⟩

theorem spliceCmds_error_shape (cm : ControllerMeta) (entries : List (String × FuncDict))
    (st : CollectState) (e : CementError) (h : spliceCmds cm entries st = .error e) :
    ∃ l, l ∈ entries.map Prod.fst ∧ l ≠ "default" ∧
      e = .runtime (dupCommandMsg l cm.label) := by
  induction entries generalizing st with
  | nil => simp [spliceCmds] at h
  | cons p rest ih =>
    obtain ⟨l, fd⟩ := p
    by_cases hc : st.exposed.contains l = true
    · by_cases hd : l = "default"
      · rw [spliceCmds, if_pos hc, if_pos hd] at h
        obtain ⟨l2, h1, h2, h3⟩ := ih _ h
        exact ⟨l2, by simp [h1], h2, h3⟩
      · rw [spliceCmds, if_pos hc, if_neg hd] at h
        refine ⟨l, by simp, hd, ?_⟩
        cases h
        rfl
    · rw [spliceCmds, if_neg hc] at h
      obtain ⟨l2, h1, h2, h3⟩ := ih _ h
      exact ⟨l2, by simp [h1], h2, h3⟩

theorem spliceCmds_default_skipped (cm : ControllerMeta) (fd : FuncDict)
    (st : CollectState) (hc : st.exposed.contains "default" = true) :
    spliceCmds cm [("default", fd)] st = .ok st := by
  rw [spliceCmds, if_pos hc, if_pos rfl]
  rfl

theorem spliceCmds_preserves_default (cm : ControllerMeta)
    (entries : List (String × FuncDict)) (st st2 : CollectState)
    (hc : st.exposed.contains "default" = true)
    (h : spliceCmds cm entries st = .ok st2) :
    st2.exposed.find? "default" = st.exposed.find? "default" := by
  induction entries generalizing st with
  | nil =>
    cases h
    rfl
  | cons p rest ih =>
    obtain ⟨l, fd⟩ := p
    by_cases hcl : st.exposed.contains l = true
    · by_cases hd : l = "default"
      · rw [spliceCmds, if_pos hcl, if_pos hd] at h
        exact ih st hc h
      · rw [spliceCmds, if_pos hcl, if_neg hd] at h
        cases h
    · have hld : l ≠ "default" := by
        rintro rfl
        rw [hc] at hcl
        exact hcl rfl
      rw [spliceCmds, if_neg hcl] at h
      set st1 : CollectState :=
        if fd.hide then { st with hidden := st.hidden.insert l fd }
        else if cm.hide then st
        else { st with visible := st.visible.insert l fd } with hst1
      have hex : st1.exposed = st.exposed := by
        rw [hst1]
        split
        · rfl
        · split <;> rfl
      have h2 := ih { st1 with exposed := st1.exposed.insert l fd } (by
        rw [show ({ st1 with exposed := st1.exposed.insert l fd} : CollectState).exposed =
          st1.exposed.insert l fd from rfl, hex]
        have := (Dict.contains_insert st.exposed l "default" fd).mpr (Or.inr hc)
        exact this) h
      rw [h2]
      show (st1.exposed.insert l fd).find? "default" = st.exposed.find? "default"
      rw [Dict.find?_insert_ne _ l "default" fd (Ne.symm hld), hex]

theorem aliasScan_mem (tok : String) (l : List (String × FuncDict)) (fd : FuncDict)
    (h : aliasScan tok l = some fd) : ∃ k, (k, fd) ∈ l ∧ tok ∈ fd.aliases := by
  induction l with
  | nil => simp [aliasScan] at h
  | cons p rest ih =>
    obtain ⟨k2, fd2⟩ := p
    by_cases hm : tok ∈ fd2.aliases
    · rw [aliasScan, if_pos hm] at h
      cases h
      exact ⟨k2, List.mem_cons_self _ _, hm⟩
    · rw [aliasScan, if_neg hm] at h
      obtain ⟨k, hk, ht⟩ := ih h
      exact ⟨k, List.mem_cons_of_mem _ hk, ht⟩

theorem aliasScan_eq_none (tok : String) (l : List (String × FuncDict))
    (h : ∀ p ∈ l, tok ∉ p.2.aliases) : aliasScan tok l = none := by
  induction l with
  | nil => rfl
  | cons p rest ih =>
    obtain ⟨k2, fd2⟩ := p
    rw [aliasScan, if_neg (h (k2, fd2) (List.mem_cons_self _ _))]
    exact ih fun q hq => h q (List.mem_cons_of_mem _ hq)

theorem checkAliasList_ok (st : CollectState) (o : String) (as2 : List String)
    (h : checkAliasList st o as2 = .ok ()) :
    ∀ al ∈ as2, st.exposed.find? al = none := by
  induction as2 with
  | nil => simp
  | cons a rest ih =>
    intro al hal
    rw [List.mem_cons] at hal
    cases hf : st.exposed.find? a with
    | some fd2 => rw [checkAliasList, hf] at h; cases h
    | none =>
      rw [checkAliasList, hf] at h
      rcases hal with rfl | hal
      · exact hf
      · exact ih h al hal

theorem checkAliasList_error_shape (st : CollectState) (o : String) (as2 : List String)
    (e : CementError) (h : checkAliasList st o as2 = .error e) :
    ∃ al fd2, al ∈ as2 ∧ st.exposed.find? al = some fd2 ∧
      e = .runtime (aliasCollisionMsg al o fd2.controller) := by
  induction as2 with
  | nil => simp [checkAliasList] at h
  | cons a rest ih =>
    cases hf : st.exposed.find? a with
    | some fd2 =>
      rw [checkAliasList, hf] at h
      cases h
      exact ⟨a, fd2, List.mem_cons_self _ _, hf, rfl⟩
    | none =>
      rw [checkAliasList, hf] at h
      obtain ⟨al, fd2, h1, h2, h3⟩ := ih h
      exact ⟨al, fd2, List.mem_cons_of_mem _ h1, h2, h3⟩

theorem checkAliasEntries_ok (st : CollectState) (l : List (String × FuncDict))
    (h : checkAliasEntries st l = .ok ()) :
    ∀ p ∈ l, ∀ al ∈ p.2.aliases, st.exposed.find? al = none := by
  induction l with
  | nil => simp
  | cons q rest ih =>
    obtain ⟨k2, fd2⟩ := q
    intro p hp al hal
    rw [List.mem_cons] at hp
    cases hcl : checkAliasList st fd2.controller fd2.aliases with
    | error e => rw [checkAliasEntries, hcl] at h; cases h
    | ok u =>
      rw [checkAliasEntries, hcl] at h
      rcases hp with rfl | hp
      · exact checkAliasList_ok st fd2.controller fd2.aliases (by cases u; exact hcl) al hal
      · exact ih h p hp al hal

theorem checkAliasEntries_error_of_violation (st : CollectState)
    (l : List (String × FuncDict))
    (hx : ∃ p ∈ l, ∃ al ∈ p.2.aliases, st.exposed.contains al = true) :
    ∃ al own oth, checkAliasEntries st l =
      .error (.runtime (aliasCollisionMsg al own oth)) := by
  induction l with
  | nil => simp at hx
  | cons q rest ih =>
    obtain ⟨k2, fd2⟩ := q
    cases hcl : checkAliasList st fd2.controller fd2.aliases with
    | error e =>
      obtain ⟨al, fdc, _, _, h3⟩ := checkAliasList_error_shape st _ _ e hcl
      refine ⟨al, fd2.controller, fdc.controller, ?_⟩
      rw [checkAliasEntries, hcl, h3]
    | ok u =>
      obtain ⟨p, hp, al, hal, hc⟩ := hx
      rw [List.mem_cons] at hp
      rcases hp with rfl | hp
      · exfalso
        have := checkAliasList_ok st fd2.controller fd2.aliases (by cases u; exact hcl) al hal
        rw [(Dict.find?_eq_none _ _).mp this] at hc
        cases hc
      · cases u
        rw [checkAliasEntries, hcl]
        exact ih ⟨p, hp, al, hal, hc⟩

end Cement

/-! ## Registry-pass and collection lemmas -/

namespace Cement

theorem regPass_ne_none (f : ControllerDef → Option (Except CementError CollectState))
    (m : ControllerMeta) (l : List ControllerDef)
    (hf : ∀ d ∈ l, ∀ p, d.meta.stacked_on = some p → p = m.label → f d ≠ none) :
    ∀ st, regPass f m l st ≠ none := by
  induction l with
  | nil =>
    intro st h
    simp [regPass] at h
  | cons d rest ih =>
    intro st
    have ihr : ∀ st2, regPass f m rest st2 ≠ none :=
      ih fun d2 hd2 => hf d2 (List.mem_cons_of_mem _ hd2)
    simp only [regPass]
    split
    · exact ihr st
    · split
      · split
        · exact ihr _
        · exact ihr _
      · next p hso =>
          split
          · next h3 =>
              subst h3
              split
              · next hfd => exact absurd hfd (hf d (List.mem_cons_self _ _) _ hso rfl)
              · simp
              · next childSt hfd =>
                  split
                  · simp
                  · next st2 hsp => exact ihr st2
          · exact ihr st

theorem collectFuel_ne_none (μ : String → Nat) (reg : List ControllerDef)
    (hμ : StackedMeasureOk μ reg) :
    ∀ fuel c, μ c.meta.label < fuel → collectFuel fuel reg c ≠ none := by
  intro fuel
  induction fuel with
  | zero =>
    intro c hc
    exact absurd hc (Nat.not_lt_zero _)
  | succ n ih =>
    intro c hc
    simp only [collectFuel]
    split
    · simp
    · next st hs =>
        have hrp : regPass (fun d => collectFuel n reg d) c.meta reg st ≠ none := by
          refine regPass_ne_none _ c.meta reg ?_ st
          intro d hd p hp hpe
          refine ih d ?_
          have h1 : μ d.meta.label < μ p := hμ d hd p hp
          rw [hpe] at h1
          omega
        split
        · next hr => exact absurd hr hrp
        · simp
        · next st2 hr =>
            split
            · simp
            · simp

theorem collectFuel_cyc_none :
    ∀ n, collectFuel n regCyc ctrlAA = none ∧ collectFuel n regCyc ctrlBB = none := by
  intro n
  induction n with
  | zero => exact ⟨rfl, rfl⟩
  | succ n ih =>
    obtain ⟨ih1, ih2⟩ := ih
    simp only [regCyc, ctrlAA, ctrlBB, defaultCmd] at ih1 ih2 ⊢
    constructor
    · simp [collectFuel, collectFromSelf, collectCmds, classifySelf, initState, regPass,
        Dict.insert, ih2]
    · simp [collectFuel, collectFromSelf, collectCmds, classifySelf, initState, regPass,
        Dict.insert, ih1]

theorem collectFuel_ok_no_alias_collision (fuel : Nat) (reg : List ControllerDef)
    (c : ControllerDef) (st : CollectState)
    (h : collectFuel fuel reg c = some (.ok st)) :
    ∀ p ∈ st.exposed, ∀ al ∈ p.2.aliases, st.exposed.find? al = none := by
  cases fuel with
  | zero => simp [collectFuel] at h
  | succ n =>
    simp only [collectFuel] at h
    split at h
    · simp at h
    · split at h
      · simp at h
      · simp at h
      · next st2 hr =>
          split at h
          · simp at h
          · next u hca =>
              simp only [Option.some.injEq, Except.ok.injEq] at h
              subst h
              cases u
              exact checkAliasEntries_ok st2 st2.exposed hca

end Cement

/-! ## Error messages mention lemmas -/

namespace Cement

theorem dupCommandMsg_mentions_label (l c : String) :
    l.data <:+: (dupCommandMsg l c).data := by
  refine ⟨"Duplicate command '".data, ("' found in '" ++ c ++ "' controller.").data, ?_⟩
  simp [dupCommandMsg, String.data_append, List.append_assoc]

theorem dupCommandMsg_mentions_child (l c : String) :
    c.data <:+: (dupCommandMsg l c).data := by
  refine ⟨("Duplicate command '" ++ l ++ "' found in '").data, "' controller.".data, ?_⟩
  simp [dupCommandMsg, String.data_append, List.append_assoc]

end Cement

/-! ## Claim theorems -/

namespace Cement

/-- C1, counterexample.  In Scenario C (`db` and `cache` both stacked on
`base`, both declaring `status`), collection does raise the fatal error
for the colliding label, but its message names only the *second* owning
controller (`cache`) and the label; the first owner (`db`) is not named,
contradicting the claim that the error names both owning controllers. -/
theorem scenarioC_error_omits_first_owner :
    collectFuel 3 regC baseC =
      some (.error (.runtime (dupCommandMsg "status" "cache"))) ∧
    ¬ ("db".data <:+: (dupCommandMsg "status" "cache").data) ∧
    ("status".data <:+: (dupCommandMsg "status" "cache").data) ∧
    ("cache".data <:+: (dupCommandMsg "status" "cache").data) :=
  ⟨rfl, by decide, by decide, by decide⟩

/-- C1, amended.  Whenever splicing a stacked child's commands fails, the
failure is the fatal `CementRuntimeError` for some spliced non-default
label already present in the table, and its message names that colliding
label and the child (second) owning controller — not both owners. -/
theorem duplicate_splice_error_names_child_only (cm : ControllerMeta)
    (entries : List (String × FuncDict)) (st : CollectState) (e : CementError)
    (h : spliceCmds cm entries st = .error e) :
    ∃ l, l ∈ entries.map Prod.fst ∧ l ≠ "default" ∧
      e = .runtime (dupCommandMsg l cm.label) ∧
      (l.data <:+: (dupCommandMsg l cm.label).data) ∧
      (cm.label.data <:+: (dupCommandMsg l cm.label).data) := by
  obtain ⟨l, h1, h2, h3⟩ := spliceCmds_error_shape cm entries st e h
  exact ⟨l, h1, h2, h3, dupCommandMsg_mentions_label l cm.label,
    dupCommandMsg_mentions_child l cm.label⟩

/-- C1, witness for the amended theorem at Scenario C's collision. -/
theorem duplicate_splice_error_names_child_only_witness :
    ∃ l, l ∈ ([("status", (⟨"db", "status", "db status", [], false⟩ : FuncDict))].map
        Prod.fst) ∧ l ≠ "default" ∧
      (CementError.runtime (dupCommandMsg "status" "cache") : CementError) =
        .runtime (dupCommandMsg l cacheC.meta.label) ∧
      (l.data <:+: (dupCommandMsg l cacheC.meta.label).data) ∧
      (cacheC.meta.label.data <:+: (dupCommandMsg l cacheC.meta.label).data) :=
  duplicate_splice_error_names_child_only cacheC.meta
    [("status", ⟨"db", "status", "db status", [], false⟩)]
    ⟨[("status", ⟨"db", "status", "db status", [], false⟩)], [], [], []⟩
    (.runtime (dupCommandMsg "status" "cache")) rfl

/-- C2 (confirmed).  A spliced `default` that collides with a `default`
already in the table is silently dropped — no error, first-registered
`default` survives unchanged — and in Scenario B (siblings `db` and
`cache` each declaring their own `default`, merged into `base`)
collection succeeds, the merged `default` is the first-registered one
(the base controller's own, registered in the self pass before any
merge), and dispatch with empty residual tokens invokes exactly that
command on its owner. -/
theorem default_merge_first_wins :
    (∀ (cm : ControllerMeta) (fd : FuncDict) (st : CollectState),
      st.exposed.contains "default" = true →
        spliceCmds cm [("default", fd)] st = .ok st)
    ∧ (∀ (cm : ControllerMeta) (entries : List (String × FuncDict))
        (st st2 : CollectState),
      st.exposed.contains "default" = true →
        spliceCmds cm entries st = .ok st2 →
          st2.exposed.find? "default" = st.exposed.find? "default")
    ∧ (∃ stB, collectFuel 3 regB baseC = some (.ok stB) ∧
        stB.exposed.find? "default" =
          some ⟨"base", "default", "default command", [], true⟩ ∧
        dispatch 3 regB baseC.meta stB initCommand [] =
          some (.ok (.invokedOnSelf "default"))) :=
  ⟨spliceCmds_default_skipped, spliceCmds_preserves_default, ⟨_, rfl, rfl, rfl⟩⟩

/-- C2, witness: the silent drop at a concrete merge point. -/
theorem default_merge_first_wins_witness :
    spliceCmds ⟨"db", "db controller", some "base", false, []⟩
      [("default", ⟨"db", "default", "db default", [], false⟩)]
      ⟨[("default", ⟨"base", "default", "default command", [], true⟩)], [], [], []⟩ =
      .ok ⟨[("default", ⟨"base", "default", "default command", [], true⟩)], [], [], []⟩ :=
  default_merge_first_wins.1 _ _ _ (by decide)

/-- C3, counterexample.  Two commands of the same controller both declare
the alias `r`; no command is labelled `r`, so
`_check_for_duplicates_on_aliases` (which only tests aliases against
*keys* of `exposed`) accepts the table: collection succeeds with two
distinct commands sharing an alias, which the claim says is always
caught at collection time. -/
theorem duplicate_alias_accepted :
    ∃ st, collectFuel 2 regAliasDup baseAliasDup = some (.ok st) ∧
      st.exposed.find? "one" = some ⟨"base", "one", "first", ["r"], false⟩ ∧
      st.exposed.find? "two" = some ⟨"base", "two", "second", ["r"], false⟩ ∧
      st.exposed.contains "r" = false :=
  ⟨_, rfl, rfl, rfl, rfl⟩

/-- C3, amended.  After successful collection no alias equals any command
*label* of the merged table (and an alias–label collision always aborts
collection with the fatal error naming the alias and both involved
controllers); alias–alias collisions that do not involve a label are not
checked. -/
theorem alias_label_collision_enforcement :
    (∀ (fuel : Nat) (reg : List ControllerDef) (c : ControllerDef) (st : CollectState),
      collectFuel fuel reg c = some (.ok st) →
        ∀ p ∈ st.exposed, ∀ al ∈ p.2.aliases, st.exposed.contains al = false)
    ∧ (∀ st : CollectState,
      (∃ p ∈ st.exposed, ∃ al ∈ p.2.aliases, st.exposed.contains al = true) →
        ∃ al own oth, checkAliases st =
          .error (.runtime (aliasCollisionMsg al own oth))) := by
  constructor
  · intro fuel reg c st h p hp al hal
    exact (Dict.find?_eq_none _ _).mp
      (collectFuel_ok_no_alias_collision fuel reg c st h p hp al hal)
  · intro st hx
    exact checkAliasEntries_error_of_violation st st.exposed hx

/-- C3, witness: an alias colliding with a label is reported. -/
theorem alias_label_collision_enforcement_witness :
    ∃ al own oth,
      checkAliases ⟨[("r", ⟨"base", "r", "", [], false⟩),
                     ("go", ⟨"db", "go", "", ["r"], false⟩)], [], [], []⟩ =
        .error (.runtime (aliasCollisionMsg al own oth)) :=
  alias_label_collision_enforcement.2 _
    ⟨("go", ⟨"db", "go", "", ["r"], false⟩), by decide, "r", by decide, by decide⟩

/-- C4 (confirmed).  With a non-empty residual token list whose head does
not start with the flag prefix: the dash→underscore-normalized head, when
a key of `exposed`, is consumed and becomes the command; otherwise the
first entry (in insertion order) whose alias list contains the raw head
is consumed and the command becomes that entry's `label`; otherwise the
command stays at the initialized `default` and the token is not
consumed. -/
theorem parse_command_resolution (ex : Dict) (tok : String) (rest : List String)
    (c0 : String) (hflag : startsWithDash tok = false) :
    (ex.contains (normalizeCmd tok) = true →
      parseCommand ex c0 (tok :: rest) = ⟨normalizeCmd tok, rest⟩)
    ∧ (ex.contains (normalizeCmd tok) = false →
      ∀ fd, aliasScan tok ex = some fd →
        parseCommand ex c0 (tok :: rest) = ⟨fd.label, rest⟩ ∧
          ∃ k, (k, fd) ∈ ex ∧ tok ∈ fd.aliases)
    ∧ (ex.contains (normalizeCmd tok) = false →
      (∀ p ∈ ex, tok ∉ p.2.aliases) →
        parseCommand ex initCommand (tok :: rest) = ⟨initCommand, tok :: rest⟩) := by
  refine ⟨?_, ?_, ?_⟩
  · intro hc
    simp [parseCommand, hflag, hc]
  · intro hc fd hfd
    refine ⟨?_, aliasScan_mem tok ex fd hfd⟩
    simp [parseCommand, hflag, hc, hfd]
  · intro hc hal
    simp [parseCommand, hflag, hc, aliasScan_eq_none tok ex hal]

/-- C4, witness: dash→underscore lookup consumes the token. -/
theorem parse_command_resolution_witness :
    parseCommand [("run_report", ⟨"base", "run_report", "", ["rr"], false⟩)] initCommand
      ["run-report"] = ⟨"run_report", []⟩ :=
  (parse_command_resolution
      [("run_report", ⟨"base", "run_report", "", ["rr"], false⟩)]
      "run-report" [] initCommand (by decide)).1 (by decide)

end Cement

namespace Cement

/-- C5 (confirmed).  For the resolved command's entry: when its
`controller` field equals the dispatching instance's own label the
command is invoked on that instance; otherwise the owner is resolved in
the handler registry, a fresh instance is constructed and `setup()` is
run on it against the same registry (same application context), and the
command is invoked on that new instance. -/
theorem dispatch_routing (fuel : Nat) (reg : List ControllerDef) (m : ControllerMeta)
    (st : CollectState) (c0 : String) (argv : List String) (fd : FuncDict)
    (hne : (parseCommand st.exposed c0 argv).command ≠ "")
    (hfd : st.exposed.find? (parseCommand st.exposed c0 argv).command = some fd) :
    (fd.controller = m.label →
      dispatch fuel reg m st c0 argv = some (.ok (.invokedOnSelf fd.label)))
    ∧ (fd.controller ≠ m.label →
      ∀ d childSt, findController reg fd.controller = some d →
        collectFuel fuel reg d = some (.ok childSt) →
          dispatch fuel reg m st c0 argv =
            some (.ok (.invokedDelegated fd.controller fd.label childSt))) := by
  constructor
  · intro hself
    simp [dispatch, hne, hfd, hself]
  · intro hother d childSt hd hcol
    simp [dispatch, hne, hfd, hother, hd, hcol]

/-- C5, witness: Scenario A — dispatching `["migrate"]` on `base`
invokes `db`'s `migrate` on a freshly collected `db` instance. -/
theorem dispatch_routing_witness :
    dispatch 3 regA baseA.meta stScenarioA initCommand ["migrate"] =
      some (.ok (.invokedDelegated "db" "migrate" dbStA)) :=
  (dispatch_routing 3 regA baseA.meta stScenarioA initCommand ["migrate"]
      ⟨"db", "migrate", "migrate cmd", ["mig"], false⟩
      (by decide) rfl).2 (by decide) dbA dbStA rfl rfl

/-- C6, counterexample.  `_collect_from_stacked_controller` never checks
a spliced command's label against its owning controller's label: in
`regX`, the controller labelled `base` (stacked on `root`) receives the
standalone-pointer entry for `root` (label = owning controller =
`root`), and splicing it into `root`'s table succeeds — collection
accepts a command whose label equals its owning controller's label
instead of rejecting it. -/
theorem spliced_owner_label_command_accepted :
    ∃ st, collectFuel 3 regX rootX = some (.ok st) ∧
      st.exposed.find? "root" = some ⟨"root", "root", "root controller", [], false⟩ :=
  ⟨_, rfl, rfl⟩

/-- C6, amended.  The label-equals-controller check lives in the self
pass only: a controller one of whose own commands is labelled with the
controller's label always fails collection with the fatal
`CementRuntimeError`; spliced commands are not re-checked. -/
theorem self_pass_rejects_own_label_command (reg : List ControllerDef) (fuel : Nat)
    (c : ControllerDef) (hx : ∃ cmd ∈ c.commands, cmd.label = c.meta.label) :
    collectFuel (fuel + 1) reg c =
      some (.error (.runtime (selfMatchMsg c.meta.label))) := by
  have h1 : collectFromSelf c initState = .error (.runtime (selfMatchMsg c.meta.label)) :=
    collectCmds_error_of_match c.meta c.commands _ hx
  simp [collectFuel, h1]

/-- C6, witness for the amended theorem. -/
theorem self_pass_rejects_own_label_command_witness :
    collectFuel 1 [] badSelf = some (.error (.runtime (selfMatchMsg "bad"))) :=
  self_pass_rejects_own_label_command [] 0 badSelf
    ⟨⟨"bad", "oops", [], false⟩, by decide, rfl⟩

/-- C7, counterexample.  With a hidden `base` owning a non-hidden `run`
and a non-hidden stacked child `db` owning `migrate`: collection
succeeds, yet `visible` is non-empty (`migrate` is classified by the
*child*'s hide flag) although the controller's own hide flag is set, and
`run` is in `exposed` but in neither `hidden` nor `visible` — so
`visible` is not `exposed` minus `hidden` and is not suppressed to
empty. -/
theorem hidden_flags_break_visible_equation :
    ∃ st, collectFuel 2 regHidden baseHidden = some (.ok st) ∧
      baseHidden.meta.hide = true ∧
      st.visible ≠ [] ∧
      st.exposed.contains "run" = true ∧
      st.hidden.contains "run" = false ∧
      st.visible.contains "run" = false ∧
      st.visible.contains "migrate" = true :=
  ⟨_, rfl, rfl, by decide, rfl, rfl, rfl, rfl⟩

/-- C7, amended.  A command of the self pass is hidden iff its own hide
flag is set, and visible iff neither it nor its controller is hidden; a
spliced command is hidden iff its own hide flag is set, and visible iff
neither it nor the *child* controller is hidden — the parent's flag is
not consulted for spliced commands (the splice step never receives it),
so `visible ⊆ exposed ∖ hidden` holds per step but the claimed equality
and the claimed suppression under the parent's flag do not. -/
theorem visibility_classification :
    (∀ (m : ControllerMeta) (c : CmdDecl) (st st2 : CollectState),
      collectCmds m [c] st = .ok st2 →
      st.hidden.contains c.label = false →
      st.visible.contains c.label = false →
        st2.exposed.contains c.label = true ∧
        st2.hidden.contains c.label = c.hide ∧
        st2.visible.contains c.label = (!c.hide && !m.hide))
    ∧ (∀ (cm : ControllerMeta) (l : String) (fd : FuncDict) (st st2 : CollectState),
      spliceCmds cm [(l, fd)] st = .ok st2 →
      st.exposed.contains l = false →
      st.hidden.contains l = false →
      st.visible.contains l = false →
        st2.exposed.contains l = true ∧
        st2.hidden.contains l = fd.hide ∧
        st2.visible.contains l = (!fd.hide && !cm.hide)) := by
  constructor
  · intro m c st st2 h hh hv
    by_cases hcl : c.label = m.label
    · rw [collectCmds, if_pos hcl] at h
      cases h
    · rw [collectCmds, if_neg hcl] at h
      simp only [collectCmds, Except.ok.injEq] at h
      subst h
      unfold classifySelf
      cases hcd : c.hide with
      | true =>
        simp only [hcd]
        exact ⟨Dict.contains_insert_self _ _ _, Dict.contains_insert_self _ _ _, hv⟩
      | false =>
        cases hmh : m.hide with
        | true =>
          simp only [hcd, hmh]
          exact ⟨Dict.contains_insert_self _ _ _, hh, hv⟩
        | false =>
          simp only [hcd, hmh]
          exact ⟨Dict.contains_insert_self _ _ _, hh, Dict.contains_insert_self _ _ _⟩
  · intro cm l fd st st2 h hex hh hv
    rw [spliceCmds, if_neg (by simp [hex])] at h
    simp only [spliceCmds, Except.ok.injEq] at h
    subst h
    cases hcd : fd.hide with
    | true =>
      simp only [hcd]
      exact ⟨Dict.contains_insert_self _ _ _, Dict.contains_insert_self _ _ _, hv⟩
    | false =>
      cases hmh : cm.hide with
      | true =>
        simp only [hcd, hmh]
        exact ⟨Dict.contains_insert_self _ _ _, hh, hv⟩
      | false =>
        simp only [hcd, hmh]
        exact ⟨Dict.contains_insert_self _ _ _, hh, Dict.contains_insert_self _ _ _⟩

/-- C7, witness at a concrete self-pass step. -/
theorem visibility_classification_witness :
    (⟨[("go", ⟨"base", "go", "", [], false⟩)], [],
      [("go", ⟨"base", "go", "", [], false⟩)], []⟩ : CollectState).exposed.contains
        "go" = true ∧
    (⟨[("go", ⟨"base", "go", "", [], false⟩)], [],
      [("go", ⟨"base", "go", "", [], false⟩)], []⟩ : CollectState).hidden.contains
        "go" = false ∧
    (⟨[("go", ⟨"base", "go", "", [], false⟩)], [],
      [("go", ⟨"base", "go", "", [], false⟩)], []⟩ : CollectState).visible.contains
        "go" = true :=
  visibility_classification.1 ⟨"base", "base controller", none, false, []⟩
    ⟨"go", "", [], false⟩ initState _ rfl rfl rfl

/-- C8, counterexample.  A controller whose subclass overrode `default`
without re-exposing it collects a table with no `default` entry; with no
residual tokens no command resolves, `self.command` stays at the truthy
initial value `"default"`, and `dispatch` then subscripts
`self.exposed["default"]` — a `KeyError`, not the claimed silent
no-op. -/
theorem missing_default_dispatch_keyerror :
    ∃ st, collectFuel 2 regNoDefault baseNoDefault = some (.ok st) ∧
      st.exposed.contains "default" = false ∧
      dispatch 2 regNoDefault baseNoDefault.meta st initCommand [] =
        some (.error (.keyError "default")) :=
  ⟨_, rfl, rfl, rfl⟩

/-- C8, amended.  The dispatcher's no-op branch fires only when the
command attribute is falsy (the empty string): then it does nothing and
raises nothing.  When a command name is set but absent from `exposed`
the dict subscript raises `KeyError`; and command resolution can never
produce the empty string from a non-empty initial command and a table
without empty labels — so with the initialized `"default"` and no
`default` entry, dispatch fails rather than no-ops. -/
theorem dispatch_noop_requires_falsy_command :
    (∀ (fuel : Nat) (reg : List ControllerDef) (m : ControllerMeta)
        (st : CollectState) (c0 : String) (argv : List String),
      (parseCommand st.exposed c0 argv).command = "" →
        dispatch fuel reg m st c0 argv = some (.ok .noop))
    ∧ (∀ (fuel : Nat) (reg : List ControllerDef) (m : ControllerMeta)
        (st : CollectState) (c0 : String) (argv : List String),
      (parseCommand st.exposed c0 argv).command ≠ "" →
      st.exposed.find? (parseCommand st.exposed c0 argv).command = none →
        dispatch fuel reg m st c0 argv =
          some (.error (.keyError (parseCommand st.exposed c0 argv).command)))
    ∧ (∀ (ex : Dict) (c0 : String) (argv : List String), c0 ≠ "" →
      (∀ p ∈ ex, p.1 ≠ "" ∧ p.2.label ≠ "") →
        (parseCommand ex c0 argv).command ≠ "") := by
  refine ⟨?_, ?_, ?_⟩
  · intro fuel reg m st c0 argv h
    simp [dispatch, h]
  · intro fuel reg m st c0 argv h hf
    simp [dispatch, h, hf]
  · intro ex c0 argv hc0 hlab
    cases argv with
    | nil => exact hc0
    | cons tok rest =>
      by_cases hfl : startsWithDash tok = true
      · simp [parseCommand, hfl]
        exact hc0
      · rw [Bool.not_eq_true] at hfl
        cases hcn : ex.contains (normalizeCmd tok) with
        | true =>
          simp only [parseCommand, hfl, Bool.false_eq_true, if_false, hcn, if_true]
          obtain ⟨v, hv⟩ := (Dict.contains_iff ex (normalizeCmd tok)).mp hcn
          exact (hlab _ hv).1
        | false =>
          cases hsc : aliasScan tok ex with
          | some fd =>
            simp only [parseCommand, hfl, Bool.false_eq_true, if_false, hcn, hsc]
            obtain ⟨k, hk, _⟩ := aliasScan_mem tok ex fd hsc
            exact (hlab _ hk).2
          | none =>
            simp only [parseCommand, hfl, Bool.false_eq_true, if_false, hcn, hsc]
            exact hc0

/-- C8, witness: the genuine no-op on a falsy command attribute. -/
theorem dispatch_noop_requires_falsy_command_witness :
    dispatch 1 [] ⟨"base", "base controller", none, false, []⟩ initState "" [] =
      some (.ok .noop) :=
  dispatch_noop_requires_falsy_command.1 1 [] _ initState "" [] rfl

end Cement

namespace Cement

/-- C9 (confirmed).  Recursive collection terminates on every registry
whose stacking relation is acyclic — witnessed by any rank function that
decreases across stacking edges, which bounds the recursion depth: with
fuel above the dispatching controller's rank, collection never runs out.
The algorithm itself performs no cycle detection: on the two-cycle
registry `regCyc` (`aa` stacked on `bb` stacked on `aa`) collection
exhausts every finite fuel, so the stacking forest's depth bound is the
only termination argument. -/
theorem collection_termination :
    (∀ (μ : String → Nat) (reg : List ControllerDef) (c : ControllerDef) (fuel : Nat),
      StackedMeasureOk μ reg → μ c.meta.label < fuel →
        collectFuel fuel reg c ≠ none)
    ∧ (∀ fuel, collectFuel fuel regCyc ctrlAA = none) := by
  constructor
  · intro μ reg c fuel hμ hc
    exact collectFuel_ne_none μ reg hμ fuel c hc
  · intro fuel
    exact (collectFuel_cyc_none fuel).1

/-- C9, witness: an explicit rank function for the acyclic Scenario B
registry lets collection of `base` finish within fuel 2. -/
theorem collection_termination_witness :
    collectFuel 2 regB baseC ≠ none :=
  collection_termination.1 (fun l => if l = "base" then 1 else 0) regB baseC 2
    (by
      intro d hd p hp
      simp only [regB, List.mem_cons, List.not_mem_nil, or_false] at hd
      rcases hd with rfl | rfl | rfl
      · simp [baseC] at hp
      · simp only [dbB] at hp
        cases hp
        simp [dbB]
      · simp only [cacheB] at hp
        cases hp
        simp [cacheB])
    (by simp [baseC])

/-- C10 (confirmed).  Reading `help_text` rewrites `self.visible` in
place: afterwards every key that contained an underscore is present
under its dash form and absent under its underscore form — indeed no key
containing an underscore remains at all, so lookups of the original
underscore-form labels fail — while `exposed` and `hidden` are
untouched. -/
theorem help_text_rewrites_visible (st : CollectState)
    (hnd : (Dict.keys st.visible).Nodup) :
    (helpTextEffect st).exposed = st.exposed
    ∧ (helpTextEffect st).hidden = st.hidden
    ∧ (∀ l ∈ Dict.keys st.visible, hasUnderscore l = true →
        (helpTextEffect st).visible.contains (dashify l) = true ∧
        (helpTextEffect st).visible.contains l = false)
    ∧ (∀ l, hasUnderscore l = true →
        (helpTextEffect st).visible.contains l = false) := by
  have hdel : ∀ l, hasUnderscore l = true →
      (helpTextEffect st).visible.contains l = false := by
    intro l hu
    cases hcl : (helpTextEffect st).visible.contains l with
    | false => rfl
    | true =>
      obtain ⟨h1, h2⟩ := foldl_hstep_shrinks (Dict.keys st.visible) st.visible l hu hcl
      exact absurd ((Dict.mem_keys st.visible l).mpr h1) h2
  refine ⟨rfl, rfl, ?_, hdel⟩
  intro l hl hu
  exact ⟨foldl_hstep_dash_present (Dict.keys st.visible) st.visible l hnd hl hu
      ((Dict.mem_keys st.visible l).mp hl), hdel l hu⟩

/-- C10, witness: after rendering help text, `run_report` is reachable
only as `run-report` in the visible mapping. -/
theorem help_text_rewrites_visible_witness :
    (helpTextEffect
        ⟨[], [], [("run_report", ⟨"base", "run_report", "", [], false⟩)], []⟩).visible.contains
      (dashify "run_report") = true ∧
    (helpTextEffect
        ⟨[], [], [("run_report", ⟨"base", "run_report", "", [], false⟩)], []⟩).visible.contains
      "run_report" = false :=
  (help_text_rewrites_visible
      ⟨[], [], [("run_report", ⟨"base", "run_report", "", [], false⟩)], []⟩
      (by decide)).2.2.1 "run_report" (by decide) (by decide)

end Cement
